import Mathlib

/-!
Verification development for the `speech-to-text` web-voice client.

The embedding below follows `src/web_voice.js` (session state machine,
result merging, channel-close parsing) and the PCM encoder worker of the
audio-recorder polyfill (`encode` / `dump` / `reset`).

Byte buffers are modelled as `List Nat`, sample-block encoding is taken at
the byte-buffer level (the float-to-PCM quantisation itself is not needed
by any property proved here), and the two asynchronous event sources are
modelled as a single stream of discrete events processed by a step
function, matching the run-to-completion semantics of the source
(each handler runs without preemption).
-/

/-- The internal session states, from the frozen `State` object of
`web_voice.js`. -/
inductive SessionState where
  | Init
  | RequestingMedia
  | OpeningWebSocket
  | Running
  | Finishing
  | FinishingEarly
  | Finished
  | Error
  | Canceled
deriving DecidableEq, Repr

/-- `isInactiveState` from `web_voice.js`: Init or any terminal state. -/
def isInactiveState (s : SessionState) : Bool :=
  s = SessionState.Init || s = SessionState.Finished ||
    s = SessionState.Error || s = SessionState.Canceled

/-- `isWebSocketState` from `web_voice.js`: states in which the web socket
event handlers act. -/
def isWebSocketState (s : SessionState) : Bool :=
  s = SessionState.OpeningWebSocket || s = SessionState.Running ||
    s = SessionState.Finishing

/-- Terminal states (spec vocabulary: Finished, Error, Canceled). -/
def isTerminalState (s : SessionState) : Bool :=
  s = SessionState.Finished || s = SessionState.Error ||
    s = SessionState.Canceled

/-- The user-facing state map `ToUserStateMap` from `web_voice.js`. -/
def toUserState : SessionState → String
  | SessionState.Init => "Init"
  | SessionState.RequestingMedia => "Starting"
  | SessionState.OpeningWebSocket => "Starting"
  | SessionState.Running => "Running"
  | SessionState.Finishing => "Finishing"
  | SessionState.FinishingEarly => "Finishing"
  | SessionState.Finished => "Finished"
  | SessionState.Error => "Error"
  | SessionState.Canceled => "Canceled"

/-- A transcribed word (`wordFromJson` output shape). -/
structure Word where
  text : String
  start_ms : Int
  duration_ms : Int
  is_final : Bool
deriving DecidableEq, Repr

/-- A word object of an inbound JSON result frame: fields `t`, `s`, `d`. -/
structure JsWord where
  t : String
  s : Int
  d : Int
deriving DecidableEq, Repr

/-- An inbound JSON result frame: fields `fw`, `nfw`, `fpt`, `tpt`. -/
structure Response where
  fw : List JsWord
  nfw : List JsWord
  fpt : Int
  tpt : Int
deriving DecidableEq, Repr

/-- `wordFromJson` from `web_voice.js`. -/
def wordFromJson (jsWord : JsWord) (isFinal : Bool) : Word :=
  { text := jsWord.t
    start_ms := jsWord.s
    duration_ms := jsWord.d
    is_final := isFinal }

/-- The accumulated result record: `words`, `final_proc_time_ms`,
`total_proc_time_ms`. -/
structure TResult where
  words : List Word
  final_proc_time_ms : Int
  total_proc_time_ms : Int
deriving DecidableEq, Repr

/-- `resultFromResponse` from `web_voice.js`: final words (flagged final)
followed by non-final words (flagged non-final). -/
def resultFromResponse (response : Response) : TResult :=
  { words := response.fw.map (fun w => wordFromJson w true) ++
      response.nfw.map (fun w => wordFromJson w false)
    final_proc_time_ms := response.fpt
    total_proc_time_ms := response.tpt }

/-- `initialResult` from `web_voice.js`. -/
def initialResult : TResult :=
  { words := [], final_proc_time_ms := 0, total_proc_time_ms := 0 }

/-- The pop-loop of `_updateResult`: remove the trailing run of non-final
words (`while (words.length > 0 && !words[words.length-1].is_final) pop`). -/
def dropTrailingNonFinal : List Word → List Word
  | [] => []
  | w :: ws =>
    match dropTrailingNonFinal ws with
    | [] => if w.is_final then [w] else []
    | r => w :: r

/-- `_updateResult` from `web_voice.js`: pop the trailing non-final run,
append all incoming words, overwrite both processing-time fields. -/
def updateResult (result newResult : TResult) : TResult :=
  { words := dropTrailingNonFinal result.words ++ newResult.words
    final_proc_time_ms := newResult.final_proc_time_ms
    total_proc_time_ms := newResult.total_proc_time_ms }

/-- The final words of a word sequence (spec vocabulary). -/
def finalWords (ws : List Word) : List Word :=
  ws.filter (fun w => w.is_final)

/-- A character of the status token class of `StatusMessageRegex`:
the class is letters, digits, underscore and hyphen. -/
def isTokenChar (c : Char) : Bool :=
  decide (('a' ≤ c ∧ c ≤ 'z') ∨ ('A' ≤ c ∧ c ≤ 'Z') ∨
    ('0' ≤ c ∧ c ≤ '9') ∨ c = '_' ∨ c = '-')

/-- A character the unflagged JavaScript regex dot matches: anything but a
line terminator (LF, CR, U+2028, U+2029). -/
def isDotChar (c : Char) : Bool :=
  decide (c ≠ Char.ofNat 10 ∧ c ≠ Char.ofNat 13 ∧
    c ≠ Char.ofNat 8232 ∧ c ≠ Char.ofNat 8233)

/-- `StatusMessageRegex.exec` over the character list of the close reason.
The regex is anchored at both ends: an opening angle bracket, a nonempty
token of `isTokenChar`s, a closing angle bracket, a greedy run of spaces,
then group 2, which is either empty or starts with a non-space character
followed only by dot-matchable characters. Since token characters never
include the closing bracket and group 2 cannot start with a space, the
greedy match is the only possible one, so this function is deterministic
exactly like the regex. Returns (group 1, group 2) on a match. -/
def execStatusMessage (cs : List Char) : Option (List Char × List Char) :=
  match cs with
  | [] => none
  | c :: rest =>
    if c = '<' then
      let tok := rest.takeWhile isTokenChar
      let rest2 := rest.dropWhile isTokenChar
      if tok = [] then none
      else
        match rest2 with
        | [] => none
        | c2 :: rest3 =>
          if c2 = '>' then
            let msg := rest3.dropWhile (fun d => d = ' ')
            match msg with
            | [] => some (tok, [])
            | _ :: t => if t.all isDotChar then some (tok, msg) else none
          else none
    else none

/-- `StatusMessageRegex` match on a close reason string: the status token
(group 1) and the message (group 2), or `none` when the regex does not
match. -/
def parseStatusMessage (reason : String) : Option (String × String) :=
  match execStatusMessage reason.data with
  | some (tok, msg) => some (String.mk tok, String.mk msg)
  | none => none

/-!  The PCM encoder worker (`pcm_s16leEncoder` in the polyfill).
Byte buffers are `List Nat`; `dump` below is the worker's `dump` with the
concatenation into output arrays rendered as list append. -/

/-- The inner/outer loop pair of the worker's `dump`: grow the current
chunk (which already holds at least one buffer) with the next buffer
whenever that keeps the chunk within `maxOutputSize`; otherwise close the
chunk and start a new one from that buffer. -/
def dumpGo (maxOutputSize : Nat) (chunk : List Nat) :
    List (List Nat) → List (List Nat)
  | [] => [chunk]
  | b :: bs =>
    if chunk.length + b.length ≤ maxOutputSize then
      dumpGo maxOutputSize (chunk ++ b) bs
    else
      chunk :: dumpGo maxOutputSize b bs

/-- The worker's `dump(maxOutputSize)` on the accumulated buffers: the
ordered sequence of output chunks (each chunk the byte concatenation of a
consecutive group of buffers). -/
def dump (maxOutputSize : Nat) : List (List Nat) → List (List Nat)
  | [] => []
  | b :: bs => dumpGo maxOutputSize b bs

/-- Instrumented `dump` keeping each chunk as the list of buffers it
groups rather than their concatenation. -/
def dumpGroupsGo (maxOutputSize : Nat) (cur : List (List Nat)) :
    List (List Nat) → List (List (List Nat))
  | [] => [cur]
  | b :: bs =>
    if cur.flatten.length + b.length ≤ maxOutputSize then
      dumpGroupsGo maxOutputSize (cur ++ [b]) bs
    else
      cur :: dumpGroupsGo maxOutputSize [b] bs

/-- The grouping computed by `dump`: consecutive nonempty groups of the
input buffers. -/
def dumpGroups (maxOutputSize : Nat) : List (List Nat) → List (List (List Nat))
  | [] => []
  | b :: bs => dumpGroupsGo maxOutputSize [b] bs

/-- The state of the encoder worker: the buffer list accumulated since the
last `dump`/`reset`. -/
structure EncoderState where
  buffers : List (List Nat)
deriving DecidableEq, Repr

/-- The worker's `encode` command at the byte-buffer level: append the
encoded block to the buffer list (the float-to-PCM16LE conversion that
produces the bytes is irrelevant to the chunking properties proved here). -/
def encoderEncode (st : EncoderState) (buf : List Nat) : EncoderState :=
  { buffers := st.buffers ++ [buf] }

/-- The worker's `dump` command: return the chunks of the accumulated
buffers and clear the buffer list (`buffers = []`). -/
def encoderDump (st : EncoderState) (maxOutputSize : Nat) :
    List (List Nat) × EncoderState :=
  (dump maxOutputSize st.buffers, { buffers := [] })

/-- The worker's `reset` command: discard the accumulated buffers. -/
def encoderReset (_st : EncoderState) : EncoderState :=
  { buffers := [] }

/-! The session state machine (`RecordTranscribe` in `web_voice.js`).
Resource handles (`_mediaStream`, `_mediaRecorder`, `_webSocket`) are
modelled by presence flags; `recordTranscribeActive` is the process-wide
active flag carried alongside the session. -/

/-- The mutable fields of a `RecordTranscribe` session together with the
process-wide `recordTranscribeActive` flag. -/
structure Session where
  state : SessionState
  result : TResult
  activeFlag : Bool
  mediaStream : Bool
  mediaRecorder : Bool
  webSocket : Bool
deriving DecidableEq, Repr

/-- An invocation of a registered notification callback of the session
(the session invokes the callback when one is registered; invocations are
recorded here unconditionally). -/
inductive Callback where
  | started
  | partialResult (result : TResult)
  | finished
  | error (status : String) (message : String)
deriving DecidableEq, Repr

/-- The discrete events the session reacts to: the two asynchronous event
sources (capture callbacks, channel callbacks), the deferred early-finish
completion scheduled by `stop()`, and the public `stop()`/`cancel()`
calls. Each is processed to completion without preemption. -/
inductive Event where
  | getUserMediaSuccess
  | getUserMediaError
  | mediaRecorderStop
  | mediaRecorderData
  | webSocketOpen
  | webSocketClose (code : Nat) (reason : String)
  | webSocketError
  | webSocketMessage (response : Response)
  | completeFinishingEarly
  | stop
  | cancel
deriving DecidableEq, Repr

/-- `_closeWebSocket`: drop the web socket handle. -/
def closeWebSocket (s : Session) : Session :=
  { s with webSocket := false }

/-- `_closeMedia`: drop the media recorder and media stream handles. -/
def closeMedia (s : Session) : Session :=
  { s with mediaRecorder := false, mediaStream := false }

/-- `_closeResources`: close the web socket, then the media resources. -/
def closeResources (s : Session) : Session :=
  closeMedia (closeWebSocket s)

/-- `_handleError`: release resources, enter Error, clear the active flag,
invoke the error callback. -/
def handleError (s : Session) (status message : String) :
    Session × List Callback :=
  ({ closeResources s with state := SessionState.Error, activeFlag := false },
    [Callback.error status message])

/-- `_handleFinished`: release resources, enter Finished, clear the active
flag, invoke the finished callback. -/
def handleFinished (s : Session) : Session × List Callback :=
  ({ closeResources s with state := SessionState.Finished, activeFlag := false },
    [Callback.finished])

/-- `_goRunningToFinishing`: close the media resources, send the empty
end-of-audio frame on the channel, enter Finishing. -/
def goRunningToFinishing (s : Session) : Session × List Callback :=
  ({ closeMedia s with state := SessionState.Finishing }, [])

/-- `_onWebSocketClose`: ignored outside the web socket states; on a
normal close (code 1000), the reason is matched against
`StatusMessageRegex` — token `eof` in Finishing finishes gracefully, token
`eof` elsewhere and every other outcome reports an error. -/
def onWebSocketClose (s : Session) (code : Nat) (reason : String) :
    Session × List Callback :=
  if isWebSocketState s.state then
    if code = 1000 then
      match parseStatusMessage reason with
      | some (status, message) =>
        if status = "eof" then
          if s.state = SessionState.Finishing then handleFinished s
          else handleError s "other_asr_error" "Unexpected EOF received."
        else handleError s status message
      | none => handleError s "other_asr_error" reason
    else
      handleError s "websocket_closed"
        ("WebSocket closed: code=" ++ toString code ++ ", reason=" ++ reason)
  else (s, [])

/-- One run-to-completion step of the session: the handler the source
registers for each event, with its stale-state guard. `stop()` in
RequestingMedia/OpeningWebSocket releases resources, schedules the
deferred `_completeFinishingEarly` (delivered later as its own event) and
enters FinishingEarly. -/
def step (s : Session) : Event → Session × List Callback
  | Event.getUserMediaSuccess =>
    if s.state = SessionState.RequestingMedia then
      ({ s with
          mediaStream := true
          mediaRecorder := true
          webSocket := true
          state := SessionState.OpeningWebSocket }, [])
    else (s, [])
  | Event.getUserMediaError =>
    if s.state = SessionState.RequestingMedia then
      handleError s "get_user_media_failed" "Failed to get user media."
    else (s, [])
  | Event.mediaRecorderStop =>
    if s.state = SessionState.Running then goRunningToFinishing s
    else (s, [])
  | Event.mediaRecorderData =>
    -- when Running the chunk is forwarded on the channel; either way the
    -- session fields and callbacks are untouched
    (s, [])
  | Event.webSocketOpen =>
    if s.state = SessionState.OpeningWebSocket then
      ({ s with state := SessionState.Running }, [Callback.started])
    else (s, [])
  | Event.webSocketClose code reason => onWebSocketClose s code reason
  | Event.webSocketError =>
    if isWebSocketState s.state then
      handleError s "websocket_error" "WebSocket error occurred."
    else (s, [])
  | Event.webSocketMessage response =>
    if s.state = SessionState.Running ∨ s.state = SessionState.Finishing then
      ({ s with result := updateResult s.result (resultFromResponse response) },
        [Callback.partialResult (resultFromResponse response)])
    else (s, [])
  | Event.completeFinishingEarly =>
    if s.state = SessionState.FinishingEarly then handleFinished s
    else (s, [])
  | Event.stop =>
    if s.state = SessionState.RequestingMedia ∨
        s.state = SessionState.OpeningWebSocket then
      ({ closeResources s with state := SessionState.FinishingEarly }, [])
    else if s.state = SessionState.Running then goRunningToFinishing s
    else (s, [])
  | Event.cancel =>
    if isInactiveState s.state then (s, [])
    else
      ({ closeResources s with
          state := SessionState.Canceled
          activeFlag := false }, [])

/-- Process a list of events in order, collecting every callback
invocation. -/
def runEvents (s : Session) : List Event → Session × List Callback
  | [] => (s, [])
  | e :: es =>
    ((runEvents (step s e).1 es).1,
      (step s e).2 ++ (runEvents (step s e).1 es).2)

/-- Whether a callback invocation is a terminal-outcome notification
(finished or error). -/
def isTerminalCallback : Callback → Bool
  | Callback.finished => true
  | Callback.error _ _ => true
  | _ => false

/-- How many terminal-outcome notifications a callback list holds. -/
def terminalCallbackCount (cbs : List Callback) : Nat :=
  cbs.countP isTerminalCallback

/-- `getState`: the coarser user-facing state. -/
def getState (s : Session) : String :=
  toUserState s.state

/-- A session in a given state with all resources held and the result
still empty (concrete sessions used by witnesses). -/
def mkSession (st : SessionState) : Session :=
  { state := st, result := initialResult, activeFlag := true,
    mediaStream := true, mediaRecorder := true, webSocket := true }

/-! Lemmas on result merging. -/

lemma dropTrailingNonFinal_nonfinal (ws : List Word)
    (h : ∀ w ∈ ws, w.is_final = false) : dropTrailingNonFinal ws = [] := by
  induction ws with
  | nil => rfl
  | cons w ws ih =>
    have hw : w.is_final = false := h w (List.mem_cons_self w ws)
    have hws : dropTrailingNonFinal ws = [] :=
      ih (fun x hx => h x (List.mem_cons_of_mem w hx))
    simp [dropTrailingNonFinal, hws, hw]

lemma dropTrailingNonFinal_cons (w : Word) (ws : List Word) :
    dropTrailingNonFinal (w :: ws) =
      match dropTrailingNonFinal ws with
      | [] => if w.is_final then [w] else []
      | r => w :: r := rfl

lemma dropTrailingNonFinal_split (F NF : List Word)
    (hF : ∀ w ∈ F, w.is_final = true) (hNF : ∀ w ∈ NF, w.is_final = false) :
    dropTrailingNonFinal (F ++ NF) = F := by
  induction F with
  | nil => simpa using dropTrailingNonFinal_nonfinal NF hNF
  | cons w F ih =>
    have hw : w.is_final = true := hF w (List.mem_cons_self w F)
    have hrest : dropTrailingNonFinal (F ++ NF) = F :=
      ih (fun x hx => hF x (List.mem_cons_of_mem w hx))
    cases F with
    | nil =>
      simp only [List.nil_append] at hrest
      simp [dropTrailingNonFinal, hrest, hw]
    | cons y ys =>
      rw [List.cons_append, dropTrailingNonFinal_cons, hrest]

lemma finalWords_split (F NF : List Word)
    (hF : ∀ w ∈ F, w.is_final = true) (hNF : ∀ w ∈ NF, w.is_final = false) :
    finalWords (F ++ NF) = F := by
  unfold finalWords
  rw [List.filter_append]
  rw [List.filter_eq_self.mpr (by simpa using hF),
    List.filter_eq_nil_iff.mpr (by simpa using hNF), List.append_nil]

/-! Lemmas on the session state machine. -/

lemma terminal_state_cases {st : SessionState} (h : isTerminalState st = true) :
    st = SessionState.Finished ∨ st = SessionState.Error ∨
      st = SessionState.Canceled := by
  cases st <;> revert h <;> decide

lemma onWebSocketClose_not_ws (s : Session) (code : Nat) (reason : String)
    (h : isWebSocketState s.state = false) :
    onWebSocketClose s code reason = (s, []) := by
  simp [onWebSocketClose, h]

lemma step_terminal (s : Session) (e : Event)
    (h : isTerminalState s.state = true) : step s e = (s, []) := by
  have hws : isWebSocketState s.state = false := by
    rcases terminal_state_cases h with hs | hs | hs <;> rw [hs] <;> decide
  have hin : isInactiveState s.state = true := by
    rcases terminal_state_cases h with hs | hs | hs <;> rw [hs] <;> decide
  have h1 : s.state ≠ SessionState.RequestingMedia := by
    rcases terminal_state_cases h with hs | hs | hs <;> rw [hs] <;> decide
  have h2 : s.state ≠ SessionState.OpeningWebSocket := by
    rcases terminal_state_cases h with hs | hs | hs <;> rw [hs] <;> decide
  have h3 : s.state ≠ SessionState.Running := by
    rcases terminal_state_cases h with hs | hs | hs <;> rw [hs] <;> decide
  have h4 : s.state ≠ SessionState.FinishingEarly := by
    rcases terminal_state_cases h with hs | hs | hs <;> rw [hs] <;> decide
  have h5 : s.state ≠ SessionState.Finishing := by
    rcases terminal_state_cases h with hs | hs | hs <;> rw [hs] <;> decide
  cases e <;>
    simp [step, onWebSocketClose, hws, hin, h1, h2, h3, h4, h5]

lemma runEvents_terminal (s : Session) (tr : List Event)
    (h : isTerminalState s.state = true) : runEvents s tr = (s, []) := by
  induction tr with
  | nil => rfl
  | cons e es ih =>
    simp only [runEvents, step_terminal s e h]
    simpa using ih

lemma terminalCallbackCount_append (l1 l2 : List Callback) :
    terminalCallbackCount (l1 ++ l2) =
      terminalCallbackCount l1 + terminalCallbackCount l2 := by
  simp [terminalCallbackCount, List.countP_append]

lemma handleError_spec (s : Session) (st msg : String) :
    terminalCallbackCount (handleError s st msg).2 = 1 ∧
      isTerminalState (handleError s st msg).1.state = true := by
  refine ⟨?_, rfl⟩
  simp [handleError, terminalCallbackCount, List.countP_cons, isTerminalCallback]

lemma handleFinished_spec (s : Session) :
    terminalCallbackCount (handleFinished s).2 = 1 ∧
      isTerminalState (handleFinished s).1.state = true := by
  refine ⟨?_, rfl⟩
  simp [handleFinished, terminalCallbackCount, List.countP_cons, isTerminalCallback]

lemma step_terminal_callback (s : Session) (e : Event) :
    terminalCallbackCount (step s e).2 = 0 ∨
      (terminalCallbackCount (step s e).2 = 1 ∧
        isTerminalState (step s e).1.state = true) := by
  cases e with
  | getUserMediaSuccess =>
    simp only [step]; split <;> exact Or.inl rfl
  | getUserMediaError =>
    simp only [step]; split
    · exact Or.inr (handleError_spec s _ _)
    · exact Or.inl rfl
  | mediaRecorderStop =>
    simp only [step]; split
    · exact Or.inl rfl
    · exact Or.inl rfl
  | mediaRecorderData => exact Or.inl rfl
  | webSocketOpen =>
    simp only [step]; split <;> exact Or.inl rfl
  | webSocketClose code reason =>
    simp only [step, onWebSocketClose]
    split
    · split
      · split
        · split
          · split
            · exact Or.inr (handleFinished_spec s)
            · exact Or.inr (handleError_spec s _ _)
          · exact Or.inr (handleError_spec s _ _)
        · exact Or.inr (handleError_spec s _ _)
      · exact Or.inr (handleError_spec s _ _)
    · exact Or.inl rfl
  | webSocketError =>
    simp only [step]; split
    · exact Or.inr (handleError_spec s _ _)
    · exact Or.inl rfl
  | webSocketMessage response =>
    simp only [step]; split <;> exact Or.inl rfl
  | completeFinishingEarly =>
    simp only [step]; split
    · exact Or.inr (handleFinished_spec s)
    · exact Or.inl rfl
  | stop =>
    simp only [step]; split
    · exact Or.inl rfl
    · split <;> exact Or.inl rfl
  | cancel =>
    simp only [step]; split <;> exact Or.inl rfl

lemma runEvents_count_le_one (tr : List Event) :
    ∀ s : Session, terminalCallbackCount (runEvents s tr).2 ≤ 1 := by
  induction tr with
  | nil => intro s; simp [runEvents, terminalCallbackCount]
  | cons e es ih =>
    intro s
    rcases step_terminal_callback s e with h0 | ⟨h1, ht⟩
    · simp only [runEvents, terminalCallbackCount_append, h0, Nat.zero_add]
      exact ih (step s e).1
    · simp only [runEvents, terminalCallbackCount_append, h1,
        runEvents_terminal (step s e).1 es ht]
      simp [terminalCallbackCount]

/-! Lemmas on the encoder's `dump`. -/

lemma dumpGroupsGo_flatten (maxOutputSize : Nat) (bs : List (List Nat)) :
    ∀ cur, (dumpGroupsGo maxOutputSize cur bs).flatten = cur ++ bs := by
  induction bs with
  | nil => intro cur; simp [dumpGroupsGo]
  | cons b bs ih =>
    intro cur
    simp only [dumpGroupsGo]
    split
    · rw [ih (cur ++ [b])]
      simp
    · simp only [List.flatten_cons, ih [b]]
      simp

lemma dumpGroupsGo_mem (maxOutputSize : Nat) (bs : List (List Nat)) :
    ∀ cur, cur ≠ [] → (1 < cur.length → cur.flatten.length ≤ maxOutputSize) →
      ∀ g ∈ dumpGroupsGo maxOutputSize cur bs,
        g ≠ [] ∧ (1 < g.length → g.flatten.length ≤ maxOutputSize) := by
  induction bs with
  | nil =>
    intro cur hne hbound g hg
    simp only [dumpGroupsGo, List.mem_singleton] at hg
    exact hg ▸ ⟨hne, hbound⟩
  | cons b bs ih =>
    intro cur hne hbound g hg
    simp only [dumpGroupsGo] at hg
    split at hg
    · refine ih (cur ++ [b]) (by simp) ?_ g hg
      intro _
      simpa using ‹cur.flatten.length + b.length ≤ maxOutputSize›
    · rcases List.mem_cons.mp hg with hgc | hgr
      · exact hgc ▸ ⟨hne, hbound⟩
      · exact ih [b] (by simp) (by simp) g hgr

lemma dumpGo_eq_groups (maxOutputSize : Nat) (bs : List (List Nat)) :
    ∀ cur, dumpGo maxOutputSize cur.flatten bs =
      (dumpGroupsGo maxOutputSize cur bs).map List.flatten := by
  induction bs with
  | nil => intro cur; simp [dumpGo, dumpGroupsGo]
  | cons b bs ih =>
    intro cur
    simp only [dumpGo, dumpGroupsGo]
    split
    · rw [show cur.flatten ++ b = (cur ++ [b]).flatten by simp, ih (cur ++ [b])]
    · simp only [List.map_cons]
      rw [show (b : List Nat) = List.flatten [b] by simp, ih [b]]
      simp

lemma dump_eq_groups (maxOutputSize : Nat) (bufs : List (List Nat)) :
    dump maxOutputSize bufs =
      (dumpGroups maxOutputSize bufs).map List.flatten := by
  cases bufs with
  | nil => rfl
  | cons b bs =>
    simp only [dump, dumpGroups]
    rw [show (b : List Nat) = List.flatten [b] by simp, dumpGo_eq_groups]
    simp

lemma dumpGroups_head_oversize (maxOutputSize : Nat) (b : List Nat)
    (rest : List (List Nat)) (h : maxOutputSize < b.length) :
    (dumpGroups maxOutputSize (b :: rest)).head? = some [b] := by
  cases rest with
  | nil => rfl
  | cons b2 bs =>
    simp only [dumpGroups, dumpGroupsGo]
    rw [if_neg]
    · rfl
    · simp only [List.flatten_cons, List.flatten_nil, List.append_nil]
      omega

/-! Claim theorems. -/

/-- C1 (counterexample): with the session in Finishing, a normal close
(code 1000) whose reason is the literal string "eof" does NOT finish the
session: `StatusMessageRegex` requires the token in angle brackets, so the
reason fails to match, and the machine enters Error with an
`other_asr_error` callback instead of Finished with `onFinished`. -/
theorem C1_counterexample :
    (step (mkSession SessionState.Finishing)
        (Event.webSocketClose 1000 "eof")).1.state = SessionState.Error ∧
    (step (mkSession SessionState.Finishing)
        (Event.webSocketClose 1000 "eof")).1.state ≠ SessionState.Finished ∧
    (step (mkSession SessionState.Finishing)
        (Event.webSocketClose 1000 "eof")).2 =
      [Callback.error "other_asr_error" "eof"] := by decide

/-- C1 (amended): if the channel closes with the normal status code (1000)
and a reason whose `StatusMessageRegex` token is `eof` (such as "<eof>")
while the session is in Finishing, the machine transitions to Finished,
the finished callback fires exactly once within the transition, and no
terminal callback ever fires afterwards. -/
theorem C1_eof_in_finishing (s : Session) (reason msg : String)
    (hstate : s.state = SessionState.Finishing)
    (hreason : parseStatusMessage reason = some ("eof", msg)) :
    (step s (Event.webSocketClose 1000 reason)).1.state =
      SessionState.Finished ∧
    (step s (Event.webSocketClose 1000 reason)).2 = [Callback.finished] ∧
    ∀ tr : List Event,
      terminalCallbackCount
        (runEvents (step s (Event.webSocketClose 1000 reason)).1 tr).2 = 0 := by
  have hws : isWebSocketState SessionState.Finishing = true := rfl
  have hstep : step s (Event.webSocketClose 1000 reason) = handleFinished s := by
    simp [step, onWebSocketClose, hws, hstate, hreason]
  rw [hstep]
  refine ⟨rfl, rfl, ?_⟩
  intro tr
  rw [runEvents_terminal (handleFinished s).1 tr rfl]
  rfl

/-- C1 (witness): the amended theorem at a concrete Finishing session and
the concrete reason "<eof>". -/
theorem C1_witness :
    (mkSession SessionState.Finishing).state = SessionState.Finishing ∧
    parseStatusMessage "<eof>" = some ("eof", "") ∧
    (step (mkSession SessionState.Finishing)
        (Event.webSocketClose 1000 "<eof>")).2 = [Callback.finished] :=
  ⟨rfl, by decide,
    (C1_eof_in_finishing (mkSession SessionState.Finishing) "<eof>" ""
      rfl (by decide)).2.1⟩

/-- C2: merging a result frame R2 into an accumulated result R1 whose word
sequence is final words followed by non-final words removes R1's trailing
non-final run wholesale and appends all of R2's words (finals before
non-finals); both processing-time fields are overwritten with R2's. -/
theorem C2_merge_result (r1 : TResult) (F NF : List Word)
    (hsplit : r1.words = F ++ NF)
    (hF : ∀ w ∈ F, w.is_final = true)
    (hNF : ∀ w ∈ NF, w.is_final = false)
    (response : Response) :
    (updateResult r1 (resultFromResponse response)).words =
      finalWords r1.words ++ (resultFromResponse response).words ∧
    (resultFromResponse response).words =
      response.fw.map (fun w => wordFromJson w true) ++
        response.nfw.map (fun w => wordFromJson w false) ∧
    (updateResult r1 (resultFromResponse response)).final_proc_time_ms =
      response.fpt ∧
    (updateResult r1 (resultFromResponse response)).total_proc_time_ms =
      response.tpt := by
  refine ⟨?_, rfl, rfl, rfl⟩
  simp only [updateResult, hsplit]
  rw [dropTrailingNonFinal_split F NF hF hNF, finalWords_split F NF hF hNF]

/-- C2 (witness): the merge theorem at a concrete accumulated result with
one final and one non-final word and a concrete incoming frame. -/
theorem C2_witness :
    (⟨[⟨"a", 0, 100, true⟩, ⟨"b", 100, 100, false⟩], 5, 6⟩ : TResult).words =
      [⟨"a", 0, 100, true⟩] ++ [⟨"b", 100, 100, false⟩] ∧
    (updateResult ⟨[⟨"a", 0, 100, true⟩, ⟨"b", 100, 100, false⟩], 5, 6⟩
        (resultFromResponse ⟨[⟨"c", 200, 50⟩], [⟨"d", 250, 50⟩], 7, 8⟩)).words =
      finalWords [⟨"a", 0, 100, true⟩, ⟨"b", 100, 100, false⟩] ++
        (resultFromResponse ⟨[⟨"c", 200, 50⟩], [⟨"d", 250, 50⟩], 7, 8⟩).words :=
  ⟨rfl,
    (C2_merge_result ⟨[⟨"a", 0, 100, true⟩, ⟨"b", 100, 100, false⟩], 5, 6⟩
      [⟨"a", 0, 100, true⟩] [⟨"b", 100, 100, false⟩] rfl
      (by decide) (by decide) ⟨[⟨"c", 200, 50⟩], [⟨"d", 250, 50⟩], 7, 8⟩).1⟩

/-- C3 (counterexample): `stop()` while inactive raises no error
notification: in Init and in Finished it is a silent no-op, leaving the
session unchanged and invoking no callback at all. -/
theorem C3_counterexample :
    step (mkSession SessionState.Init) Event.stop =
      (mkSession SessionState.Init, []) ∧
    step (mkSession SessionState.Finished) Event.stop =
      (mkSession SessionState.Finished, []) := by decide

/-- C3 (amended): `stop()` is a no-op (swallowed, no error raised, no
callback invoked) in every state other than RequestingMedia,
OpeningWebSocket and Running — including the inactive states. -/
theorem C3_stop_noop (s : Session)
    (h : s.state ≠ SessionState.RequestingMedia ∧
      s.state ≠ SessionState.OpeningWebSocket ∧
      s.state ≠ SessionState.Running) :
    step s Event.stop = (s, []) := by
  obtain ⟨h1, h2, h3⟩ := h
  simp [step, h1, h2, h3]

/-- C3 (witness): the amended theorem at a concrete Finishing session. -/
theorem C3_witness :
    ((mkSession SessionState.Finishing).state ≠ SessionState.RequestingMedia ∧
      (mkSession SessionState.Finishing).state ≠ SessionState.OpeningWebSocket ∧
      (mkSession SessionState.Finishing).state ≠ SessionState.Running) ∧
    step (mkSession SessionState.Finishing) Event.stop =
      (mkSession SessionState.Finishing, []) :=
  ⟨⟨by decide, by decide, by decide⟩,
    C3_stop_noop (mkSession SessionState.Finishing)
      ⟨by decide, by decide, by decide⟩⟩

/-- C4: `dump` partitions the accumulated buffers greedily in order: every
chunk groups at least one whole buffer (no buffer is ever split), every
chunk grouping more than one buffer stays within `maxOutputSize`, the
grouping concatenates back to the original buffer sequence, the emitted
byte chunks are exactly the concatenations of the groups, and a first
buffer larger than the limit forms the first chunk by itself. -/
theorem C4_dump_chunking (maxOutputSize : Nat) (bufs : List (List Nat)) :
    (∀ g ∈ dumpGroups maxOutputSize bufs,
      g ≠ [] ∧ (1 < g.length → g.flatten.length ≤ maxOutputSize)) ∧
    (dumpGroups maxOutputSize bufs).flatten = bufs ∧
    dump maxOutputSize bufs = (dumpGroups maxOutputSize bufs).map List.flatten ∧
    (∀ b rest, bufs = b :: rest → maxOutputSize < b.length →
      (dumpGroups maxOutputSize bufs).head? = some [b] ∧
      (dump maxOutputSize bufs).head? = some b) := by
  refine ⟨?_, ?_, dump_eq_groups _ _, ?_⟩
  · intro g hg
    cases bufs with
    | nil => simp [dumpGroups] at hg
    | cons b bs =>
      exact dumpGroupsGo_mem maxOutputSize bs [b] (by simp) (by simp) g hg
  · cases bufs with
    | nil => rfl
    | cons b bs =>
      simpa using dumpGroupsGo_flatten maxOutputSize bs [b]
  · intro b rest hb hlen
    subst hb
    refine ⟨dumpGroups_head_oversize _ _ _ hlen, ?_⟩
    rw [dump_eq_groups, List.head?_map, dumpGroups_head_oversize _ _ _ hlen]
    simp

/-- C4 (witness): `dump 2` on per-buffer sizes [3, 1, 1] where 3 > 2
produces a first chunk holding the oversized buffer alone. -/
theorem C4_witness :
    ([[9, 9, 9], [1], [2]] : List (List Nat)) = [9, 9, 9] :: [[1], [2]] ∧
    2 < ([9, 9, 9] : List Nat).length ∧
    (dumpGroups 2 [[9, 9, 9], [1], [2]]).head? = some [[9, 9, 9]] ∧
    (dump 2 [[9, 9, 9], [1], [2]]).head? = some [9, 9, 9] :=
  ⟨rfl, by decide,
    ((C4_dump_chunking 2 [[9, 9, 9], [1], [2]]).2.2.2 [9, 9, 9] [[1], [2]]
      rfl (by decide)).1,
    ((C4_dump_chunking 2 [[9, 9, 9], [1], [2]]).2.2.2 [9, 9, 9] [[1], [2]]
      rfl (by decide)).2⟩

/-- C5: once the session is in a terminal state (Finished, Error or
Canceled), no further event of any kind changes the session (state,
result, resources or active flag) or invokes any callback; and along any
event sequence from any session, at most one terminal-outcome callback
(finished or error) ever fires. -/
theorem C5_terminal_states_absorb :
    (∀ (s : Session) (tr : List Event),
      isTerminalState s.state = true → runEvents s tr = (s, [])) ∧
    (∀ (s : Session) (tr : List Event),
      terminalCallbackCount (runEvents s tr).2 ≤ 1) :=
  ⟨fun s tr h => runEvents_terminal s tr h,
    fun s tr => runEvents_count_le_one tr s⟩

/-- C5 (witness): the absorption theorem at a concrete Finished session
and a concrete event sequence covering stop, cancel, channel close,
capture grant and the deferred early-finish completion. -/
theorem C5_witness :
    isTerminalState (mkSession SessionState.Finished).state = true ∧
    runEvents (mkSession SessionState.Finished)
        [Event.cancel, Event.stop, Event.webSocketClose 1000 "<eof>",
          Event.getUserMediaSuccess, Event.completeFinishingEarly] =
      (mkSession SessionState.Finished, []) :=
  ⟨by decide,
    C5_terminal_states_absorb.1 (mkSession SessionState.Finished)
      [Event.cancel, Event.stop, Event.webSocketClose 1000 "<eof>",
        Event.getUserMediaSuccess, Event.completeFinishingEarly] (by decide)⟩

/-- C6: a normal close (code 1000) whose reason carries the token `eof`
while the session is in OpeningWebSocket or Running reports
`other_asr_error` with message "Unexpected EOF received." and enters
Error. -/
theorem C6_eof_unexpected (s : Session) (reason msg : String)
    (hstate : s.state = SessionState.OpeningWebSocket ∨
      s.state = SessionState.Running)
    (hreason : parseStatusMessage reason = some ("eof", msg)) :
    (step s (Event.webSocketClose 1000 reason)).1.state = SessionState.Error ∧
    (step s (Event.webSocketClose 1000 reason)).2 =
      [Callback.error "other_asr_error" "Unexpected EOF received."] := by
  have hws : isWebSocketState s.state = true := by
    rcases hstate with h | h <;> rw [h] <;> decide
  have hne : ¬ s.state = SessionState.Finishing := by
    rcases hstate with h | h <;> rw [h] <;> decide
  have hstep : step s (Event.webSocketClose 1000 reason) =
      handleError s "other_asr_error" "Unexpected EOF received." := by
    simp [step, onWebSocketClose, hws, hreason, hne]
  rw [hstep]
  exact ⟨rfl, rfl⟩

/-- C6 (witness): the theorem at a concrete Running session and the
concrete reason "<eof>". -/
theorem C6_witness :
    ((mkSession SessionState.Running).state = SessionState.OpeningWebSocket ∨
      (mkSession SessionState.Running).state = SessionState.Running) ∧
    (step (mkSession SessionState.Running)
        (Event.webSocketClose 1000 "<eof>")).2 =
      [Callback.error "other_asr_error" "Unexpected EOF received."] :=
  ⟨Or.inr rfl,
    (C6_eof_unexpected (mkSession SessionState.Running) "<eof>" ""
      (Or.inr rfl) (by decide)).2⟩

/-- C7 (counterexample): Init is a non-terminal state, yet `cancel()`
called in Init is a no-op — it does not transition to Canceled, because
the guard uses `isInactiveState`, which also covers Init. -/
theorem C7_counterexample :
    isTerminalState (mkSession SessionState.Init).state = false ∧
    step (mkSession SessionState.Init) Event.cancel =
      (mkSession SessionState.Init, []) ∧
    (step (mkSession SessionState.Init) Event.cancel).1.state ≠
      SessionState.Canceled := by decide

/-- C7 (amended): from any active (non-inactive, i.e. neither Init nor
terminal) state, `cancel()` releases both capture and channel resources,
transitions to Canceled and invokes no callback; a second consecutive
`cancel()` is a no-op that changes nothing and invokes nothing. -/
theorem C7_cancel_idempotent (s : Session)
    (h : isInactiveState s.state = false) :
    (step s Event.cancel).1.state = SessionState.Canceled ∧
    (step s Event.cancel).2 = [] ∧
    (step s Event.cancel).1.webSocket = false ∧
    (step s Event.cancel).1.mediaRecorder = false ∧
    (step s Event.cancel).1.mediaStream = false ∧
    step (step s Event.cancel).1 Event.cancel =
      ((step s Event.cancel).1, []) := by
  have hstep : step s Event.cancel =
      ({ closeResources s with
          state := SessionState.Canceled
          activeFlag := false }, []) := by
    simp [step, h]
  rw [hstep]
  have hcanc : isInactiveState SessionState.Canceled = true := rfl
  exact ⟨rfl, rfl, rfl, rfl, rfl, by simp [step, hcanc]⟩

/-- C7 (witness): the amended theorem at a concrete Running session. -/
theorem C7_witness :
    isInactiveState (mkSession SessionState.Running).state = false ∧
    (step (mkSession SessionState.Running) Event.cancel).1.state =
      SessionState.Canceled :=
  ⟨by decide,
    (C7_cancel_idempotent (mkSession SessionState.Running) (by decide)).1⟩

/-- C8: `stop()` in RequestingMedia or OpeningWebSocket invokes no
callback synchronously and only sets the state to FinishingEarly; the
transition to Finished with the finished callback happens solely in the
separately delivered deferred completion step, and only if the state is
still FinishingEarly when it runs. -/
theorem C8_stop_early_defers (s : Session)
    (h : s.state = SessionState.RequestingMedia ∨
      s.state = SessionState.OpeningWebSocket) :
    (step s Event.stop).2 = [] ∧
    (step s Event.stop).1.state = SessionState.FinishingEarly ∧
    (∀ s2 : Session, s2.state = SessionState.FinishingEarly →
      (step s2 Event.completeFinishingEarly).1.state = SessionState.Finished ∧
      (step s2 Event.completeFinishingEarly).2 = [Callback.finished]) ∧
    (∀ s2 : Session, s2.state ≠ SessionState.FinishingEarly →
      step s2 Event.completeFinishingEarly = (s2, [])) := by
  have hstep : step s Event.stop =
      ({ closeResources s with state := SessionState.FinishingEarly }, []) := by
    simp only [step]
    rw [if_pos h]
  refine ⟨by rw [hstep], by rw [hstep], ?_, ?_⟩
  · intro s2 h2
    have hc : step s2 Event.completeFinishingEarly = handleFinished s2 := by
      simp [step, h2]
    rw [hc]
    exact ⟨rfl, rfl⟩
  · intro s2 h2
    simp [step, h2]

/-- C8 (witness): the theorem at a concrete RequestingMedia session. -/
theorem C8_witness :
    ((mkSession SessionState.RequestingMedia).state =
        SessionState.RequestingMedia ∨
      (mkSession SessionState.RequestingMedia).state =
        SessionState.OpeningWebSocket) ∧
    (step (mkSession SessionState.RequestingMedia) Event.stop).2 = [] :=
  ⟨Or.inl rfl,
    (C8_stop_early_defers (mkSession SessionState.RequestingMedia)
      (Or.inl rfl)).1⟩

/-- C9: `dump` is destructive/draining — it clears the worker's buffer
list, so a second `dump` immediately after a first one, with no
intervening `encode`, returns an empty sequence of chunks for every
accumulated buffer sequence and every pair of limits. -/
theorem C9_dump_draining (st : EncoderState) (m1 m2 : Nat) :
    (encoderDump (encoderDump st m1).2 m2).1 = [] ∧
    (encoderDump (encoderDump st m1).2 m2).2.buffers = [] :=
  ⟨rfl, rfl⟩

/-- C10: `cancel()` never invokes any registered callback from any state,
and from any active state the caller observes the cancellation through
`getState()` returning "Canceled". -/
theorem C10_cancel_silent :
    (∀ s : Session, (step s Event.cancel).2 = []) ∧
    (∀ s : Session, isInactiveState s.state = false →
      getState (step s Event.cancel).1 = "Canceled") := by
  constructor
  · intro s
    simp only [step]
    split
    · rfl
    · rfl
  · intro s h
    have hstep : step s Event.cancel =
        ({ closeResources s with
            state := SessionState.Canceled
            activeFlag := false }, []) := by
      simp [step, h]
    rw [hstep]
    rfl

/-- C10 (witness): the theorem's second part at a concrete Running
session. -/
theorem C10_witness :
    isInactiveState (mkSession SessionState.Running).state = false ∧
    getState (step (mkSession SessionState.Running) Event.cancel).1 =
      "Canceled" :=
  ⟨by decide,
    C10_cancel_silent.2 (mkSession SessionState.Running) (by decide)⟩
